import Mathlib

/-!
Verification of `kindelia_ws_events` (`src/kindelia_ws_events/src/lib.rs`).

The library broadcasts events of a generic type `T : SerializableWithDiscriminant`
to WebSocket clients.  Each client supplies a comma-separated `tags` query
parameter; per received event the session re-parses the tag list into a list of
discriminants, admits the event when the list is empty or contains the event's
discriminant, serializes admitted events with `serde_json::to_string(..).unwrap()`,
and counts consecutive transmission failures, closing the connection after the
tenth consecutive failure or on a hub receive error.

The embedding is parametric in the discriminant type `D` (with decidable
equality, modelling Rust's `Eq`), the event type `E`, the discriminant parser
`parse : String → Except String D` (modelling `FromStr<Err = String>`), the
discriminant projection `disc : E → D` (modelling `From<Self>`), and the
fallible serializer `ser : E → Option String` (modelling `serde_json::to_string`,
whose failure the code turns into a panic via `unwrap`).
-/

set_option autoImplicit false

namespace KindeliaWsEvents

/-- Embedding of `struct QueryParams { tags: Option<String> }`. -/
structure QueryParams where
  tags : Option String
deriving DecidableEq, Repr

/-- Embedding of `struct Query { tags: Vec<String> }`. -/
structure Query where
  tags : List String
deriving DecidableEq, Repr

/-- Embedding of Rust `str::split(',')` on the character list of a string:
every occurrence of `','` separates two segments, so a string with `k` commas
yields `k + 1` segments and the empty string yields the single segment `[]`. -/
def splitCommaChars : List Char → List (List Char)
  | [] => [[]]
  | c :: cs =>
    match splitCommaChars cs with
    | [] => []
    | p :: ps => if c = ',' then [] :: p :: ps else (c :: p) :: ps

/-- Embedding of Rust `tags.split(',').map(str::to_string)`. -/
def splitComma (s : String) : List String :=
  (splitCommaChars s.data).map (fun cs => ⟨cs⟩)

/-- Embedding of `parse_query` (lib.rs lines 61–67): splits a present `tags`
value on commas (Rust `str::split(',')`, which yields the one-element list of
the empty segment for the empty string), and yields the empty list when the
parameter is absent. -/
def parse_query (query : QueryParams) : Query :=
  match query.tags with
  | some tags => ⟨splitComma tags⟩
  | none => ⟨[]⟩

/-- Embedding of the per-event filter parse in `client_connection` (lib.rs
lines 101–102): `tags.iter().map(|tag| T::Discriminant::from_str(tag)).collect()`
on `Result`, i.e. parse each tag in order and fail with the first error. -/
def collectParsed {D : Type} (parse : String → Except String D) :
    List String → Except String (List D)
  | [] => Except.ok []
  | t :: ts =>
    match parse t with
    | Except.error e => Except.error e
    | Except.ok d =>
      match collectParsed parse ts with
      | Except.error e => Except.error e
      | Except.ok ds => Except.ok (d :: ds)

/-- Embedding of the admission condition in `client_connection` (lib.rs line
105): `tags.is_empty() || tags.contains(&(event.clone().into()))`. -/
def admits {D : Type} [DecidableEq D] (filter : List D) (d : D) : Bool :=
  filter.isEmpty || decide (d ∈ filter)

/-- Result of one iteration of the `client_connection` receive loop on an
event successfully received from the hub:
`transmitted` is the serialized text frame whose transmission was attempted
(if any), `count` the updated consecutive-failure counter, `closed` whether the
loop breaks after this iteration, and `panicked` whether
`serde_json::to_string(&event).unwrap()` panicked. -/
structure StepOut where
  transmitted : Option String
  count : Nat
  closed : Bool
  panicked : Bool
deriving DecidableEq, Repr

/-- Embedding of the body of the `while let Ok(event) = ws_rx.recv().await`
loop in `client_connection` (lib.rs lines 100–122) for one received `event`,
given the current consecutive-failure `count` and the outcome `sendOk` of the
WebSocket send attempt (the transport's behaviour, an input to the code):
re-parse `tags`; on parse error break out of the loop; otherwise, if the
filter admits the event, serialize (panicking if serialization fails) and
attempt the send, resetting the counter on success and incrementing it on
failure, then break if the counter reached 10. -/
def client_connection_step {D E : Type} [DecidableEq D]
    (parse : String → Except String D) (disc : E → D) (ser : E → Option String)
    (tags : List String) (count : Nat) (event : E) (sendOk : Bool) : StepOut :=
  match collectParsed parse tags with
  | Except.error _ => ⟨none, count, true, false⟩
  | Except.ok filter =>
    if admits filter (disc event) then
      match ser event with
      | none => ⟨none, count, true, true⟩
      | some json =>
        let c := if sendOk then 0 else count + 1
        ⟨some json, c, c == 10, false⟩
    else ⟨none, count, false, false⟩

/-- A message handed to the session by the hub receiver: either a successfully
received event (`ws_rx.recv().await` returned `Ok`), or a receive error
(`RecvError::Closed` — the publisher is gone — or `RecvError::Lagged` — the
subscriber missed events), which makes the `while let` loop exit. -/
inductive HubMsg (E : Type) where
  | ok (event : E)
  | err
deriving DecidableEq, Repr

/-- Result of running the `client_connection` receive loop over a finite trace
of hub messages: `sent` is the list of text frames whose transmission was
attempted, in order; `finalCount` the consecutive-failure counter when the run
stops; `closed` whether the loop exited (the session tore the connection down)
rather than merely exhausting the trace while still waiting; `panicked` whether
serialization panicked. -/
structure RunOut where
  sent : List String
  finalCount : Nat
  closed : Bool
  panicked : Bool
deriving DecidableEq, Repr

/-- Embedding of the `client_connection` receive loop (lib.rs lines 100–123)
over a finite trace of hub messages, each paired with the transport's answer to
a send attempt made while processing it. -/
def client_connection_run {D E : Type} [DecidableEq D]
    (parse : String → Except String D) (disc : E → D) (ser : E → Option String)
    (tags : List String) : List (HubMsg E × Bool) → Nat → RunOut
  | [], count => ⟨[], count, false, false⟩
  | (HubMsg.err, _) :: _, count => ⟨[], count, true, false⟩
  | (HubMsg.ok e, sendOk) :: rest, count =>
    let out := client_connection_step parse disc ser tags count e sendOk
    if out.panicked then ⟨out.transmitted.toList, out.count, true, true⟩
    else if out.closed then ⟨out.transmitted.toList, out.count, true, false⟩
    else
      let r := client_connection_run parse disc ser tags rest out.count
      ⟨out.transmitted.toList ++ r.sent, r.finalCount, r.closed, r.panicked⟩

/-- `let mut count = 0;` — the consecutive-failure counter a session starts
with (lib.rs line 98). -/
def client_connection_initial_count : Nat := 0

/-- A concrete instantiation of the generic event contract, used to evaluate
the session on concrete inputs: events and discriminants are strings, the
discriminant of an event is the event itself, the recognized tag names are
`"A"`, `"B"`, `"C"`, and serialization always succeeds. -/
def demoParse (s : String) : Except String String :=
  if s = "A" || s = "B" || s = "C" then Except.ok s else Except.error s

/-- Discriminant projection of the concrete instantiation. -/
def demoDisc (e : String) : String := e

/-- Serializer of the concrete instantiation (total). -/
def demoSer (e : String) : Option String := some e

/-! ### Helper lemmas about the per-event filter parse -/

theorem collectParsed_forall_ok {D : Type} (parse : String → Except String D) :
    ∀ {l : List String} {F : List D}, collectParsed parse l = Except.ok F →
      ∀ t ∈ l, ∃ d, parse t = Except.ok d ∧ d ∈ F := by
  intro l
  induction l with
  | nil =>
    intro F _ t ht
    simp at ht
  | cons a as ih =>
    intro F h t ht
    simp only [collectParsed] at h
    split at h
    · simp at h
    · next d hpa =>
      split at h
      · simp at h
      · next ds hre =>
        rw [Except.ok.injEq] at h
        subst h
        rcases List.mem_cons.mp ht with rfl | hmem
        · exact ⟨d, hpa, List.mem_cons_self _ _⟩
        · obtain ⟨d', hd', hdF⟩ := ih hre t hmem
          exact ⟨d', hd', List.mem_cons_of_mem _ hdF⟩

theorem collectParsed_mem {D : Type} (parse : String → Except String D) :
    ∀ {l : List String} {F : List D}, collectParsed parse l = Except.ok F →
      ∀ d : D, d ∈ F ↔ ∃ t ∈ l, parse t = Except.ok d := by
  intro l
  induction l with
  | nil =>
    intro F h d
    simp only [collectParsed, Except.ok.injEq] at h
    subst h
    simp
  | cons a as ih =>
    intro F h d
    simp only [collectParsed] at h
    split at h
    · simp at h
    · next d' hpa =>
      split at h
      · simp at h
      · next ds hre =>
        rw [Except.ok.injEq] at h
        subst h
        constructor
        · intro hd
          rcases List.mem_cons.mp hd with rfl | hmem
          · exact ⟨a, List.mem_cons_self _ _, hpa⟩
          · obtain ⟨t, htl, hpt⟩ := (ih hre d).mp hmem
            exact ⟨t, List.mem_cons_of_mem _ htl, hpt⟩
        · rintro ⟨t, htl, hpt⟩
          rcases List.mem_cons.mp htl with rfl | hmem
          · rw [hpa, Except.ok.injEq] at hpt
            subst hpt
            exact List.mem_cons_self _ _
          · exact List.mem_cons_of_mem _ ((ih hre d).mpr ⟨t, hmem, hpt⟩)

theorem collectParsed_ok_of_forall {D : Type} (parse : String → Except String D) :
    ∀ {l : List String}, (∀ t ∈ l, ∃ d, parse t = Except.ok d) →
      ∃ F, collectParsed parse l = Except.ok F := by
  intro l
  induction l with
  | nil =>
    intro _
    exact ⟨[], rfl⟩
  | cons a as ih =>
    intro h
    obtain ⟨d, hd⟩ := h a (List.mem_cons_self _ _)
    obtain ⟨F, hF⟩ := ih fun t ht => h t (List.mem_cons_of_mem _ ht)
    refine ⟨d :: F, ?_⟩
    simp only [collectParsed, hd, hF]

theorem collectParsed_nil_iff {D : Type} (parse : String → Except String D)
    {l : List String} {F : List D} (h : collectParsed parse l = Except.ok F) :
    F = [] ↔ l = [] := by
  cases l with
  | nil =>
    simp only [collectParsed, Except.ok.injEq] at h
    subst h
    simp
  | cons a as =>
    simp only [collectParsed] at h
    constructor
    · intro hF
      subst hF
      split at h
      · simp at h
      · split at h
        · simp at h
        · simp at h
    · intro hl
      simp at hl

theorem admits_eq_true_iff {D : Type} [DecidableEq D] (F : List D) (d : D) :
    admits F d = true ↔ F = [] ∨ d ∈ F := by
  simp [admits, List.isEmpty_iff]

/-! ### Broadcast Hub model -/

/-- Modelled from the spec: the Broadcast Hub is `tokio::sync::broadcast`, an
external collaborator whose sources are not part of this repository.  Per the
spec, `publish(event)` sends the event to all current subscribers and
`subscribe() -> Receiver` "returns a handle that will receive every event
published after this call; events published before subscribing are never
delivered (no history/replay)".  The hub is the ordered stream of events
published so far; a receiver handle is the index into that stream at
subscription time, and a receiver is delivered exactly the suffix of the
stream from its index on. -/
structure Hub (E : Type) where
  published : List E

/-- Modelled from the spec: `publish(event)` appends the event to the stream. -/
def Hub.publish {E : Type} (h : Hub E) (e : E) : Hub E :=
  ⟨h.published ++ [e]⟩

/-- Modelled from the spec: `subscribe()` returns a receiver handle recording
the current position of the publish stream. -/
def Hub.subscribe {E : Type} (h : Hub E) : Nat :=
  h.published.length

/-- Publishing a whole list of events, in order. -/
def Hub.publishAll {E : Type} (h : Hub E) (l : List E) : Hub E :=
  l.foldl Hub.publish h

/-- Modelled from the spec: the events delivered to the receiver handle `r` are
those published from position `r` on. -/
def Hub.deliveredTo {E : Type} (h : Hub E) (r : Nat) : List E :=
  h.published.drop r

theorem Hub.publishAll_published {E : Type} (h : Hub E) (l : List E) :
    (Hub.publishAll h l).published = h.published ++ l := by
  induction l generalizing h with
  | nil => simp [Hub.publishAll]
  | cons a as ih =>
    show (Hub.publishAll (Hub.publish h a) as).published = _
    rw [ih]
    simp [Hub.publish]

/-! ### The claims -/

/-- C1: for a connection whose tag list parses successfully to the filter `F`,
an event received while the connection is active has its serialized form
transmitted (a send is attempted) if and only if `F` is empty or the event's
discriminant is a member of `F`; in particular an event whose discriminant is
not in a non-empty `F` is never transmitted. -/
theorem C1_transmitted_iff_admitted {D E : Type} [DecidableEq D]
    (parse : String → Except String D) (disc : E → D) (ser : E → Option String)
    (tags : List String) (F : List D) (count : Nat) (e : E) (sendOk : Bool)
    (hF : collectParsed parse tags = Except.ok F)
    (hser : (ser e).isSome = true) :
    (client_connection_step parse disc ser tags count e sendOk).transmitted.isSome = true
      ↔ (F = [] ∨ disc e ∈ F) := by
  obtain ⟨j, hj⟩ := Option.isSome_iff_exists.mp hser
  simp only [client_connection_step, hF]
  by_cases hadm : admits F (disc e) = true
  · rw [if_pos hadm, hj]
    simpa using (admits_eq_true_iff F (disc e)).mp hadm
  · rw [if_neg hadm]
    simp only [Option.isSome_none, Bool.false_eq_true, false_iff]
    intro hor
    exact hadm ((admits_eq_true_iff F (disc e)).mpr hor)

/-- C1 witness: with the concrete contract, tag list `["A"]` and the event
`"B"`, the biconditional holds at explicit inputs. -/
theorem C1_transmitted_iff_admitted_witness :
    (client_connection_step demoParse demoDisc demoSer ["A"] 0 "B" true).transmitted.isSome
        = true
      ↔ (["A"] = ([] : List String) ∨ demoDisc "B" ∈ ["A"]) :=
  C1_transmitted_iff_admitted demoParse demoDisc demoSer ["A"] ["A"] 0 "B" true rfl rfl

/-- C2 counterexample: when the `tags` query parameter is present with the
empty string as its value, the derived tag list is `[""]`, which is not the
empty list, and (in the concrete contract, where the empty string is not a
recognized tag) a published event is not delivered: the session attempts no
send and closes — contradicting the claim that an empty-string value yields an
empty tag list and delivery of every event. -/
theorem C2_counterexample :
    (parse_query { tags := some "" }).tags = [""] ∧
    (parse_query { tags := some "" }).tags ≠ [] ∧
    client_connection_run demoParse demoDisc demoSer
        (parse_query { tags := some "" }).tags [(HubMsg.ok "A", true)]
        client_connection_initial_count =
      ⟨[], 0, true, false⟩ := by
  refine ⟨by decide, by decide, by decide⟩

/-- C2 (amended): when the `tags` query parameter is absent, the derived tag
list is empty and the session transmits every received event (no filtering,
no panic), provided the event serializes. -/
theorem C2_absent_means_no_filtering {D E : Type} [DecidableEq D]
    (parse : String → Except String D) (disc : E → D) (ser : E → Option String)
    (count : Nat) (e : E) (sendOk : Bool)
    (hser : (ser e).isSome = true) :
    (parse_query { tags := none }).tags = [] ∧
    (client_connection_step parse disc ser (parse_query { tags := none }).tags
        count e sendOk).transmitted.isSome = true ∧
    (client_connection_step parse disc ser (parse_query { tags := none }).tags
        count e sendOk).panicked = false := by
  obtain ⟨j, hj⟩ := Option.isSome_iff_exists.mp hser
  refine ⟨rfl, ?_, ?_⟩ <;>
    simp [client_connection_step, parse_query, collectParsed, admits, hj]

/-- C2 witness: the amended claim at the concrete contract and the event
`"A"`. -/
theorem C2_absent_means_no_filtering_witness :
    (parse_query { tags := none }).tags = [] ∧
    (client_connection_step demoParse demoDisc demoSer (parse_query { tags := none }).tags
        0 "A" true).transmitted.isSome = true ∧
    (client_connection_step demoParse demoDisc demoSer (parse_query { tags := none }).tags
        0 "A" true).panicked = false :=
  C2_absent_means_no_filtering demoParse demoDisc demoSer 0 "A" true rfl

/-- C5: when the hub receiver signals an error (publisher gone, or the
subscriber lagged), the session terminates immediately: the rest of the trace
is never read, nothing is sent, and the failure counter is left as it was. -/
theorem C5_hub_error_terminates {D E : Type} [DecidableEq D]
    (parse : String → Except String D) (disc : E → D) (ser : E → Option String)
    (tags : List String) (sendOk : Bool) (rest : List (HubMsg E × Bool)) (count : Nat) :
    client_connection_run parse disc ser tags ((HubMsg.err, sendOk) :: rest) count =
      ⟨[], count, true, false⟩ :=
  rfl

/-- C6: a receiver that subscribes to the hub is delivered exactly the events
published after its `subscribe()` call; no event published before the call is
ever delivered (no history, no replay). -/
theorem C6_no_replay {E : Type} (h : Hub E) (later : List E) :
    Hub.deliveredTo (Hub.publishAll h later) (Hub.subscribe h) = later := by
  simp [Hub.deliveredTo, Hub.subscribe, Hub.publishAll_published, List.drop_left]

/-- C3: for an admitted event, a transmission failure increments the
consecutive-failure counter by 1 and the connection closes exactly when the
counter reaches 10, a transmission success resets the counter to 0 and leaves
the connection open; concretely, a session that starts at the initial counter
and suffers 9 consecutive failures followed by 1 success remains open with
counter 0, while one suffering 10 consecutive failures is closed. -/
theorem C3_failure_counter_threshold {D E : Type} [DecidableEq D]
    (parse : String → Except String D) (disc : E → D) (ser : E → Option String)
    (tags : List String) (F : List D) (count : Nat) (e : E) (j : String)
    (hF : collectParsed parse tags = Except.ok F)
    (hadm : admits F (disc e) = true)
    (hj : ser e = some j) :
    ((client_connection_step parse disc ser tags count e false).count = count + 1 ∧
      ((client_connection_step parse disc ser tags count e false).closed = true ↔
        count + 1 = 10)) ∧
    ((client_connection_step parse disc ser tags count e true).count = 0 ∧
      (client_connection_step parse disc ser tags count e true).closed = false) ∧
    ((client_connection_run demoParse demoDisc demoSer ["A"]
        (List.replicate 9 (HubMsg.ok "A", false) ++ [(HubMsg.ok "A", true)])
        client_connection_initial_count).closed = false ∧
      (client_connection_run demoParse demoDisc demoSer ["A"]
        (List.replicate 9 (HubMsg.ok "A", false) ++ [(HubMsg.ok "A", true)])
        client_connection_initial_count).finalCount = 0) ∧
    (client_connection_run demoParse demoDisc demoSer ["A"]
        (List.replicate 10 (HubMsg.ok "A", false))
        client_connection_initial_count).closed = true := by
  refine ⟨⟨?_, ?_⟩, ⟨?_, ?_⟩, by decide, by decide⟩ <;>
    simp [client_connection_step, hF, hadm, hj]

/-- C3 witness: the failure and success transitions at counter 3 with the
concrete contract. -/
theorem C3_failure_counter_threshold_witness :
    ((client_connection_step demoParse demoDisc demoSer ["A"] 3 "A" false).count = 3 + 1 ∧
      ((client_connection_step demoParse demoDisc demoSer ["A"] 3 "A" false).closed = true ↔
        3 + 1 = 10)) ∧
    ((client_connection_step demoParse demoDisc demoSer ["A"] 3 "A" true).count = 0 ∧
      (client_connection_step demoParse demoDisc demoSer ["A"] 3 "A" true).closed = false) ∧
    ((client_connection_run demoParse demoDisc demoSer ["A"]
        (List.replicate 9 (HubMsg.ok "A", false) ++ [(HubMsg.ok "A", true)])
        client_connection_initial_count).closed = false ∧
      (client_connection_run demoParse demoDisc demoSer ["A"]
        (List.replicate 9 (HubMsg.ok "A", false) ++ [(HubMsg.ok "A", true)])
        client_connection_initial_count).finalCount = 0) ∧
    (client_connection_run demoParse demoDisc demoSer ["A"]
        (List.replicate 10 (HubMsg.ok "A", false))
        client_connection_initial_count).closed = true :=
  C3_failure_counter_threshold demoParse demoDisc demoSer ["A"] ["A"] 3 "A" "A" rfl rfl rfl

/-- C4: if the tag list contains a tag that fails to parse, the per-event
filter parse fails as a whole, so no partial filter is ever used: over any
trace of hub messages the session attempts no send at all and does not panic,
and as soon as any message arrives the session closes. -/
theorem C4_unparseable_tag_closes {D E : Type} [DecidableEq D]
    (parse : String → Except String D) (disc : E → D) (ser : E → Option String)
    (tags : List String) (msg : String) (count : Nat)
    (inputs : List (HubMsg E × Bool))
    (h : collectParsed parse tags = Except.error msg) :
    (client_connection_run parse disc ser tags inputs count).sent = [] ∧
    (client_connection_run parse disc ser tags inputs count).panicked = false ∧
    (inputs ≠ [] → (client_connection_run parse disc ser tags inputs count).closed = true) := by
  cases inputs with
  | nil => exact ⟨rfl, rfl, fun h' => absurd rfl h'⟩
  | cons hd rest =>
    obtain ⟨m, sendOk⟩ := hd
    cases m with
    | err => exact ⟨rfl, rfl, fun _ => rfl⟩
    | ok e =>
      refine ⟨?_, ?_, fun _ => ?_⟩ <;>
        simp [client_connection_run, client_connection_step, h]

/-- C4 witness: with the concrete contract, the unrecognized tag `"Z"` makes a
session receiving one event send nothing, panic nowhere, and close. -/
theorem C4_unparseable_tag_closes_witness :
    (client_connection_run demoParse demoDisc demoSer ["Z"]
        [(HubMsg.ok "A", true)] 0).sent = [] ∧
    (client_connection_run demoParse demoDisc demoSer ["Z"]
        [(HubMsg.ok "A", true)] 0).panicked = false ∧
    (client_connection_run demoParse demoDisc demoSer ["Z"]
        [(HubMsg.ok "A", true)] 0).closed = true :=
  ⟨(C4_unparseable_tag_closes demoParse demoDisc demoSer ["Z"] "Z" 0
      [(HubMsg.ok "A", true)] rfl).1,
    (C4_unparseable_tag_closes demoParse demoDisc demoSer ["Z"] "Z" 0
      [(HubMsg.ok "A", true)] rfl).2.1,
    (C4_unparseable_tag_closes demoParse demoDisc demoSer ["Z"] "Z" 0
      [(HubMsg.ok "A", true)] rfl).2.2 (by decide)⟩

/-- C7: the consecutive-failure counter starts at 0; one step of the receive
loop either resets it to 0, leaves it unchanged, or increments it by 1 — it is
never changed in any other way — and an event that is filtered out leaves it
unchanged. -/
theorem C7_counter_invariant {D E : Type} [DecidableEq D]
    (parse : String → Except String D) (disc : E → D) (ser : E → Option String)
    (tags : List String) (count : Nat) (e : E) (sendOk : Bool) :
    client_connection_initial_count = 0 ∧
    ((client_connection_step parse disc ser tags count e sendOk).count = 0 ∨
      (client_connection_step parse disc ser tags count e sendOk).count = count ∨
      (client_connection_step parse disc ser tags count e sendOk).count = count + 1) ∧
    (∀ F, collectParsed parse tags = Except.ok F → admits F (disc e) = false →
      (client_connection_step parse disc ser tags count e sendOk).count = count) := by
  refine ⟨rfl, ?_, ?_⟩
  · simp only [client_connection_step]
    split
    · simp
    · split
      · split
        · simp
        · cases sendOk <;> simp
      · simp
  · intro F hF hadm
    simp [client_connection_step, hF, hadm]

/-- C7 witness: with the concrete contract, the event `"B"` is filtered out by
the tag list `["A"]` and leaves the counter at 5. -/
theorem C7_counter_invariant_witness :
    client_connection_initial_count = 0 ∧
    (client_connection_step demoParse demoDisc demoSer ["A"] 5 "B" true).count = 5 :=
  ⟨(C7_counter_invariant demoParse demoDisc demoSer ["A"] 5 "B" true).1,
    (C7_counter_invariant demoParse demoDisc demoSer ["A"] 5 "B" true).2.2
      ["A"] rfl (by decide)⟩

/-- C8: an event not admitted by a valid non-empty filter produces exactly the
frame step: no transmission attempted, counter unchanged, connection still
open, no panic. -/
theorem C8_filtered_event_frame {D E : Type} [DecidableEq D]
    (parse : String → Except String D) (disc : E → D) (ser : E → Option String)
    (tags : List String) (F : List D) (count : Nat) (e : E) (sendOk : Bool)
    (hF : collectParsed parse tags = Except.ok F)
    (hne : F ≠ []) (hmem : disc e ∉ F) :
    client_connection_step parse disc ser tags count e sendOk =
      ⟨none, count, false, false⟩ := by
  have hadm : admits F (disc e) = false := by
    rw [Bool.eq_false_iff]
    intro hadm
    rcases (admits_eq_true_iff F (disc e)).mp hadm with h1 | h2
    · exact hne h1
    · exact hmem h2
  simp [client_connection_step, hF, hadm]

/-- C8 witness: the frame step at the concrete contract, tag list `["A"]`,
event `"B"`, counter 3. -/
theorem C8_filtered_event_frame_witness :
    client_connection_step demoParse demoDisc demoSer ["A"] 3 "B" false =
      ⟨none, 3, false, false⟩ :=
  C8_filtered_event_frame demoParse demoDisc demoSer ["A"] ["A"] 3 "B" false
    rfl (by decide) (by decide)

/-- C9: under the Event Contract precondition that every event serializes
successfully, no step of the receive loop ever reaches the serialization
panic. -/
theorem C9_no_serialization_panic {D E : Type} [DecidableEq D]
    (parse : String → Except String D) (disc : E → D) (ser : E → Option String)
    (hser : ∀ x : E, (ser x).isSome = true)
    (tags : List String) (count : Nat) (e : E) (sendOk : Bool) :
    (client_connection_step parse disc ser tags count e sendOk).panicked = false := by
  obtain ⟨j, hj⟩ := Option.isSome_iff_exists.mp (hser e)
  simp only [client_connection_step, hj]
  split
  · rfl
  · split
    · rfl
    · rfl

/-- C9 witness: with the concrete (total) serializer no panic occurs at an
explicit input. -/
theorem C9_no_serialization_panic_witness :
    (client_connection_step demoParse demoDisc demoSer ["A"] 0 "A" true).panicked = false :=
  C9_no_serialization_panic demoParse demoDisc demoSer (fun _ => rfl) ["A"] 0 "A" true

/-- C10: the step of the receive loop depends on the tag list only through its
set of members: two tag lists with the same members — in particular
permutations of each other, or lists differing only in duplicated entries —
produce identical steps on every event. -/
theorem C10_decision_depends_on_tag_set {D E : Type} [DecidableEq D]
    (parse : String → Except String D) (disc : E → D) (ser : E → Option String)
    (l1 l2 : List String) (count : Nat) (e : E) (sendOk : Bool)
    (hmem : ∀ t : String, t ∈ l1 ↔ t ∈ l2) :
    client_connection_step parse disc ser l1 count e sendOk =
      client_connection_step parse disc ser l2 count e sendOk := by
  cases h1 : collectParsed parse l1 with
  | error m1 =>
    cases h2 : collectParsed parse l2 with
    | error m2 => simp [client_connection_step, h1, h2]
    | ok F2 =>
      exfalso
      obtain ⟨F1, hF1⟩ := collectParsed_ok_of_forall parse
        (fun t ht =>
          (collectParsed_forall_ok parse h2 t ((hmem t).mp ht)).imp fun _ hd => hd.1)
      rw [h1] at hF1
      exact Except.noConfusion hF1
  | ok F1 =>
    cases h2 : collectParsed parse l2 with
    | error m2 =>
      exfalso
      obtain ⟨F2, hF2⟩ := collectParsed_ok_of_forall parse
        (fun t ht =>
          (collectParsed_forall_ok parse h1 t ((hmem t).mpr ht)).imp fun _ hd => hd.1)
      rw [h2] at hF2
      exact Except.noConfusion hF2
    | ok F2 =>
      have hl : l1 = [] ↔ l2 = [] := by
        simp only [List.eq_nil_iff_forall_not_mem]
        exact ⟨fun h t ht => h t ((hmem t).mpr ht), fun h t ht => h t ((hmem t).mp ht)⟩
      have hemp : F1 = [] ↔ F2 = [] :=
        (collectParsed_nil_iff parse h1).trans
          (hl.trans (collectParsed_nil_iff parse h2).symm)
      have hFmem : ∀ d, d ∈ F1 ↔ d ∈ F2 := by
        intro d
        rw [collectParsed_mem parse h1 d, collectParsed_mem parse h2 d]
        constructor
        · rintro ⟨t, ht, hp⟩
          exact ⟨t, (hmem t).mp ht, hp⟩
        · rintro ⟨t, ht, hp⟩
          exact ⟨t, (hmem t).mpr ht, hp⟩
      have h1e : F1.isEmpty = F2.isEmpty := by
        rw [Bool.eq_iff_iff]
        simpa [List.isEmpty_iff] using hemp
      have h2e : (decide (disc e ∈ F1)) = (decide (disc e ∈ F2)) := by
        rw [Bool.eq_iff_iff]
        simpa using hFmem (disc e)
      have hadm : admits F1 (disc e) = admits F2 (disc e) := by
        rw [admits, admits, h1e, h2e]
      simp only [client_connection_step, h1, h2, hadm]

/-- C10 witness: the lists `["A", "B", "A"]` and `["B", "A"]` (a permutation
with a duplicate) give identical steps on the event `"A"`. -/
theorem C10_decision_depends_on_tag_set_witness :
    client_connection_step demoParse demoDisc demoSer ["A", "B", "A"] 0 "A" true =
      client_connection_step demoParse demoDisc demoSer ["B", "A"] 0 "A" true :=
  C10_decision_depends_on_tag_set demoParse demoDisc demoSer
    ["A", "B", "A"] ["B", "A"] 0 "A" true
    (fun t => by
      constructor
      · intro ht
        rcases List.mem_cons.mp ht with rfl | ht
        · exact List.mem_cons_of_mem _ (List.mem_cons_self _ _)
        · exact ht
      · intro ht
        exact List.mem_cons_of_mem _ ht)

end KindeliaWsEvents
